import Mathlib

/-!
Shallow embedding of the kelly backend fetch/cache/compute pipeline.

Source files modelled here:
- `src/backend/fetch_volatility.py`        (namespace `FetchVolatility`, yfinance provider)
- `src/backend/fetch_volatility_nasdaq.py` (namespace `FetchVolatilityNasdaq`, NASDAQ provider)
- `src/backend/add_stock.py`               (`add_stock`)
- `src/backend/update_stock_data_nasdaq.py` (`update_stock_settings`)

Modelling conventions:
- Python floats are modelled by exact rationals, except that a float value that the
  source can compute as IEEE NaN is modelled by the dedicated `PyFloat.nan`
  constructor (pandas `std()` of fewer than two observations is NaN, and NaN
  propagates through the products that follow it).
- Opaque numeric library calls (`np.log`, `np.sqrt`, the Python `**` operator and
  2-digit `round`) are abstracted as rational-valued function parameters collected
  in `FloatOps`; the source treats them as black boxes and no claim depends on
  their value, only on nonnegativity of `np.sqrt` on nonnegative arguments.
- Python dicts (cache files, result mappings, settings documents) are association
  lists with Python's insertion-order update semantics (`dinsert`, `dget`).
- Code that can raise an exception is modelled in `Except Unit`; `Except.error ()`
  marks an uncaught Python exception at the modelled program point.
- The filesystem and the network are abstracted into explicit parameters: the
  state of the cache file on entry (`CacheFile`), and the value produced by the
  provider-fetch step (`data_dict` for the NASDAQ provider, `Option YfData` for
  the yfinance provider).
-/

deriving instance DecidableEq for Except

/-- Model of a Python float value: either IEEE NaN or a finite value, modelled as an
exact rational. Infinities never arise in the claims under study and are not modelled. -/
inductive PyFloat where
  | nan : PyFloat
  | val : ℚ → PyFloat
deriving DecidableEq

/-- Per-symbol statistics record `{"volatility": ..., "expectedReturn": ...}`;
`none` models JSON/Python null (`None`). -/
structure SymbolStats where
  volatility : Option PyFloat
  expectedReturn : Option PyFloat
deriving DecidableEq

/-- The record `{"volatility": None, "expectedReturn": None}` stored for a failed symbol. -/
def nullStats : SymbolStats := ⟨none, none⟩

/-- Python dict lookup `m[k]` / `k in m` on an association list (first matching key). -/
def dget {α : Type} : List (String × α) → String → Option α
  | [], _ => none
  | (k, v) :: rest, s => if k = s then some v else dget rest s

/-- Python dict assignment `m[k] = v`: replace the value at the first matching key in
place (dict update keeps the key position), else append the new pair at the end. -/
def dinsert {α : Type} : List (String × α) → String → α → List (String × α)
  | [], k, v => [(k, v)]
  | (k2, v2) :: rest, k, v =>
      if k2 = k then (k2, v) :: rest else (k2, v2) :: dinsert rest k v

/-- The opaque floating-point library operations the source calls, abstracted as
rational-valued functions: `logf` models `np.log`, `sqrtf` models `np.sqrt`,
`powf` models the binary `**` operator, `roundf` models `round(., 2)`. -/
structure FloatOps where
  logf : ℚ → ℚ
  sqrtf : ℚ → ℚ
  powf : ℚ → ℚ → ℚ
  roundf : ℚ → ℚ

/-- A concrete `FloatOps` instance used to evaluate the model on concrete inputs. -/
def idOps : FloatOps := ⟨id, id, fun a _ => a, id⟩

/-- One row of a canonical price series: the `DatetimeIndex` entry (calendar days,
as an integer epoch offset, so that `(index[-1] - index[0]).days` is a difference)
and the `Adj Close` price (the only column the statistics engine reads). -/
structure Row where
  date : ℤ
  price : ℚ
deriving DecidableEq

/-- Arithmetic mean of a list of rationals (`pandas` mean of a Series). -/
def listMean (xs : List ℚ) : ℚ := xs.sum / (xs.length : ℚ)

/-- Sample variance with `ddof = 1` (the `pandas` default for `Series.std`). -/
def sampleVariance (xs : List ℚ) : ℚ :=
  ((xs.map (fun x => (x - listMean xs) ^ 2)).sum) / ((xs.length : ℚ) - 1)

/-- `pandas Series.std()` with the default `ddof = 1`: NaN when fewer than two
observations are present, otherwise the square root of the sample variance. -/
def sampleStd (sqrtf : ℚ → ℚ) (xs : List ℚ) : PyFloat :=
  if xs.length < 2 then PyFloat.nan else PyFloat.val (sqrtf (sampleVariance xs))

/-- `np.log(s / s.shift(1)).dropna()`: the daily log return for each consecutive
pair of prices. The first element of the shifted quotient is NaN and is dropped,
leaving `n - 1` returns for `n` prices. -/
def dailyLogReturns (logf : ℚ → ℚ) (prices : List ℚ) : List ℚ :=
  (prices.zip prices.tail).map (fun p => logf (p.2 / p.1))

/-- `calculate_annualized_volatility` — identical in `fetch_volatility.py` lines 39-61
and `fetch_volatility_nasdaq.py` lines 153-175: sample standard deviation of the
daily log returns of `Adj Close`, times `sqrt(252)`, times 100. NaN from the
standard deviation propagates through the products. -/
def calculate_annualized_volatility (ops : FloatOps) (series : List Row) : PyFloat :=
  let daily_returns := dailyLogReturns ops.logf (series.map Row.price)
  match sampleStd ops.sqrtf daily_returns with
  | PyFloat.nan => PyFloat.nan
  | PyFloat.val s => PyFloat.val (s * ops.sqrtf 252 * 100)

/-- `round(float(x), 2)` applied to a possibly-NaN float: `round` of NaN is NaN. -/
def PyFloat.round2 (roundf : ℚ → ℚ) : PyFloat → PyFloat
  | PyFloat.nan => PyFloat.nan
  | PyFloat.val q => PyFloat.val (roundf q)

namespace FetchVolatility

/-- `calculate_expected_return`, `fetch_volatility.py` lines 63-84. `iloc[0]` /
`iloc[-1]` on an empty frame raise IndexError (`Except.error`). There is no guard on
`days`: when the first and last timestamps fall on the same day, `365 / days` raises
ZeroDivisionError, modelled as `Except.error ()`. -/
def calculate_expected_return (ops : FloatOps) (series : List Row) : Except Unit ℚ :=
  match series.head?, series.getLast? with
  | some first, some last =>
      let total_return := last.price / first.price - 1
      let days : ℤ := last.date - first.date
      if days = 0 then Except.error ()
      else Except.ok ((ops.powf (1 + total_return) (365 / (days : ℚ)) - 1) * 100)
  | _, _ => Except.error ()

end FetchVolatility

namespace FetchVolatilityNasdaq

/-- `calculate_expected_return`, `fetch_volatility_nasdaq.py` lines 177-203. Same
formula as the yfinance variant, but with the explicit guard `if days == 0: return 0.0`
before the division. -/
def calculate_expected_return (ops : FloatOps) (series : List Row) : Except Unit ℚ :=
  match series.head?, series.getLast? with
  | some first, some last =>
      let total_return := last.price / first.price - 1
      let days : ℤ := last.date - first.date
      if days = 0 then Except.ok 0
      else Except.ok ((ops.powf (1 + total_return) (365 / (days : ℚ)) - 1) * 100)
  | _, _ => Except.error ()

end FetchVolatilityNasdaq

/-- The cache file as `get_stock_volatility_and_returns` observes it on entry:
whether `os.path.exists` holds, whether the mtime test
`datetime.now() - mtime < timedelta(days=1)` holds, and what `json.load` yields —
`some` a parsed symbol map, or `none` when opening/parsing raises (corrupt or
unreadable file). -/
structure CacheFile where
  onDisk : Bool
  fresh : Bool
  content : Option (List (String × SymbolStats))
deriving DecidableEq

/-- Observable outcome of one `get_stock_volatility_and_returns` call: the returned
result mapping, whether the provider-fetch step ran, and the cache content passed to
`json.dump` (`none` when no cache write was attempted). -/
structure GVROutcome where
  results : List (String × SymbolStats)
  fetchInvoked : Bool
  writtenCache : Option (List (String × SymbolStats))
deriving DecidableEq

/-- The condition under which the cache-hit branch returns early: cache file exists,
is fresh, parses, and covers every requested symbol. -/
def cacheServes (cache : CacheFile) (symbols : List String) : Bool :=
  (cache.onDisk && cache.fresh) &&
    (match cache.content with
     | some cd => symbols.all (fun s => (dget cd s).isSome)
     | none => false)

/-- One iteration of the per-symbol processing loop, shared shape of
`fetch_volatility.py` lines 140-167 and `fetch_volatility_nasdaq.py` lines 259-289.
`outcome s = some st` is the successful try-block body: store `st` in `results` and
in `cache_data`. `outcome s = none` covers both the explicit no-data branch and a
caught per-symbol exception: store nulls in `results` only. -/
def pairStep (outcome : String → Option SymbolStats)
    (acc : List (String × SymbolStats) × List (String × SymbolStats)) (s : String) :
    List (String × SymbolStats) × List (String × SymbolStats) :=
  match outcome s with
  | some st => (dinsert acc.1 s st, dinsert acc.2 s st)
  | none => (dinsert acc.1 s nullStats, acc.2)

/-- The `for symbol in symbols:` processing loop, folding `pairStep` over the
requested symbols starting from empty results and the retained `cache_data`. -/
def processLoop (outcome : String → Option SymbolStats) (symbols : List String)
    (init : List (String × SymbolStats) × List (String × SymbolStats)) :
    List (String × SymbolStats) × List (String × SymbolStats) :=
  symbols.foldl (pairStep outcome) init

namespace FetchVolatilityNasdaq

/-- Body of the per-symbol try block, `fetch_volatility_nasdaq.py` lines 269-282:
volatility (never raises), then expected return (raises on an empty frame), then
both rounded to 2 digits and stored as non-null floats. -/
def computeSymbolStats (ops : FloatOps) (series : List Row) : Except Unit SymbolStats :=
  let volatility := calculate_annualized_volatility ops series
  match calculate_expected_return ops series with
  | Except.error e => Except.error e
  | Except.ok er =>
      Except.ok ⟨some (volatility.round2 ops.roundf), some (PyFloat.val (ops.roundf er))⟩

/-- Per-symbol outcome of the loop body, `fetch_volatility_nasdaq.py` lines 259-289:
`none` when the symbol is absent from `data_dict` (explicit null branch, no cache
update) or when the try block raises (caught, null branch, no cache update);
`some st` when the computation succeeds. -/
def symbolOutcome (ops : FloatOps) (dataDict : List (String × List Row)) (s : String) :
    Option SymbolStats :=
  match dget dataDict s with
  | none => none
  | some series =>
      match computeSymbolStats ops series with
      | Except.error _ => none
      | Except.ok st => some st

/-- The recompute path, `fetch_volatility_nasdaq.py` lines 247-298, entered with the
current binding state of the local `cache_data`: `some cd` when line 256 can evaluate
it (either the fresh parsed content, or `{}` when the cache was not usable), `none`
when the fresh cache failed to parse so the local was never bound — in that case the
reference to `cache_data` on line 256 raises UnboundLocalError, unless the fetch
returned no data at all (line 251 returns `{}` first). -/
def computePath (ops : FloatOps) (symbols : List String)
    (dataDict : List (String × List Row))
    (cacheData : Option (List (String × SymbolStats))) : Except Unit GVROutcome :=
  if dataDict.isEmpty then Except.ok ⟨[], true, none⟩
  else
    match cacheData with
    | none => Except.error ()
    | some cd =>
        let p := processLoop (symbolOutcome ops dataDict) symbols ([], cd)
        Except.ok ⟨p.1, true, some p.2⟩

/-- `get_stock_volatility_and_returns`, `fetch_volatility_nasdaq.py` lines 205-298.
The filesystem state is the `cache` parameter; the provider-fetch step
`fetch_historical_data(symbols, period)` is abstracted as the `dataDict` parameter
(symbols that failed to fetch are absent from it). -/
def get_stock_volatility_and_returns (ops : FloatOps) (symbols : List String)
    (cache : CacheFile) (dataDict : List (String × List Row)) : Except Unit GVROutcome :=
  if cache.onDisk && cache.fresh then
    match cache.content with
    | some cd =>
        if symbols.all (fun s => (dget cd s).isSome) then
          Except.ok ⟨symbols.foldl (fun r s => dinsert r s ((dget cd s).getD nullStats)) [],
            false, none⟩
        else computePath ops symbols dataDict (some cd)
    | none => computePath ops symbols dataDict none
  else computePath ops symbols dataDict (some [])

end FetchVolatilityNasdaq

namespace FetchVolatility

/-- Shape of the value returned by `yf.download(symbols, ...)` when it does not
raise: a plain frame when exactly one symbol was requested, a ticker-grouped frame
otherwise (a symbol whose download failed is absent from the grouped frame). -/
inductive YfData where
  | single (series : List Row)
  | grouped (tables : List (String × List Row))
deriving DecidableEq

/-- `fetch_volatility.py` lines 142-147: `symbol_data = data` when one symbol was
requested, else `symbol_data = data[symbol]`. A missing symbol in the grouped frame
raises KeyError inside the try block; a shape that does not match the arity raises
at the subsequent column access — both are modelled as `Except.error` here since
either way the per-symbol try block catches them. -/
def extractSymbolData (symbols : List String) (data : YfData) (s : String) :
    Except Unit (List Row) :=
  if symbols.length = 1 then
    match data with
    | YfData.single series => Except.ok series
    | YfData.grouped _ => Except.error ()
  else
    match data with
    | YfData.single _ => Except.error ()
    | YfData.grouped g =>
        match dget g s with
        | some series => Except.ok series
        | none => Except.error ()

/-- Body of the per-symbol try block, `fetch_volatility.py` lines 141-157: extract
the symbol's frame, volatility, expected return (no zero-day guard in this file),
both rounded and stored as non-null floats. -/
def trySymbol (ops : FloatOps) (symbols : List String) (data : YfData) (s : String) :
    Except Unit SymbolStats :=
  match extractSymbolData symbols data s with
  | Except.error e => Except.error e
  | Except.ok series =>
      let volatility := calculate_annualized_volatility ops series
      match calculate_expected_return ops series with
      | Except.error e => Except.error e
      | Except.ok er =>
          Except.ok ⟨some (volatility.round2 ops.roundf), some (PyFloat.val (ops.roundf er))⟩

/-- Per-symbol outcome of the loop: `some st` when the try block succeeds, `none`
when it raises (caught: nulls stored in results, no cache update). -/
def symbolOutcome (ops : FloatOps) (symbols : List String) (data : YfData) (s : String) :
    Option SymbolStats :=
  (trySymbol ops symbols data s).toOption

/-- The recompute path, `fetch_volatility.py` lines 128-176. `data = none` models
`yf.download` having raised (`fetch_historical_data` returned None): line 132 returns
`{}`. Otherwise line 137 evaluates `cache_data`, raising UnboundLocalError when the
fresh cache failed to parse (`cacheData = none`). -/
def computePath (ops : FloatOps) (symbols : List String) (data : Option YfData)
    (cacheData : Option (List (String × SymbolStats))) : Except Unit GVROutcome :=
  match data with
  | none => Except.ok ⟨[], true, none⟩
  | some d =>
      match cacheData with
      | none => Except.error ()
      | some cd =>
          let p := processLoop (symbolOutcome ops symbols d) symbols ([], cd)
          Except.ok ⟨p.1, true, some p.2⟩

/-- `get_stock_volatility_and_returns`, `fetch_volatility.py` lines 86-176. Same
cache skeleton as the NASDAQ variant; the provider step `fetch_historical_data`
is abstracted as the `data` parameter. -/
def get_stock_volatility_and_returns (ops : FloatOps) (symbols : List String)
    (cache : CacheFile) (data : Option YfData) : Except Unit GVROutcome :=
  if cache.onDisk && cache.fresh then
    match cache.content with
    | some cd =>
        if symbols.all (fun s => (dget cd s).isSome) then
          Except.ok ⟨symbols.foldl (fun r s => dinsert r s ((dget cd s).getD nullStats)) [],
            false, none⟩
        else computePath ops symbols data (some cd)
    | none => computePath ops symbols data none
  else computePath ops symbols data (some [])

end FetchVolatility

/-- One entry of `settings["stocks"]`: the two fields this pipeline owns plus any
other application fields (pass-through), modelled as an association list of extra
key/value pairs. -/
structure StockEntry where
  volatility : Option PyFloat
  expectedReturn : Option PyFloat
  extra : List (String × ℚ)
deriving DecidableEq

/-- The settings JSON document: the top-level `stocks` mapping plus the rest of the
top-level keys (pass-through, modelled as an association list). -/
structure SettingsDoc where
  stocks : List (String × StockEntry)
  rest : List (String × ℚ)
deriving DecidableEq

/-- Overwrite exactly the `volatility` and `expectedReturn` fields of an entry with
the freshly computed values, keeping every other field. -/
def applyStats (d : SymbolStats) (e : StockEntry) : StockEntry :=
  { e with volatility := d.volatility, expectedReturn := d.expectedReturn }

/-- The two in-place field assignments of `update_stock_data_nasdaq.py` lines 33-34,
applied to the entry stored under key `k` (keys are unique in a Python dict; every
occurrence of the key is updated, all other entries are untouched and order kept). -/
def updateFields : List (String × StockEntry) → String → SymbolStats →
    List (String × StockEntry)
  | [], _, _ => []
  | (k2, e) :: rest, k, d =>
      if k2 = k then (k2, applyStats d e) :: updateFields rest k d
      else (k2, e) :: updateFields rest k d

/-- Python's `str.upper()`: uppercase every character. -/
def pyUpper (s : String) : String := String.mk (s.data.map Char.toUpper)

/-- Observable outcome of one `add_stock` call: the boolean return value, whether a
settings write was attempted, and the document handed to `json.dump` when the write
succeeded. -/
structure AddStockResult where
  ok : Bool
  writeAttempted : Bool
  written : Option SettingsDoc
deriving DecidableEq

/-- `add_stock`, `add_stock.py` lines 9-62. `settingsLoad = none` models a failed
settings load; `stock_data` abstracts the result of
`get_stock_volatility_and_returns([symbol], period="5y")`; `saveOk` abstracts
whether `json.dump` of the settings succeeds. -/
def add_stock (settingsLoad : Option SettingsDoc) (symbol : String)
    (stock_data : List (String × SymbolStats)) (saveOk : Bool) : AddStockResult :=
  let symbolU := pyUpper symbol
  match settingsLoad with
  | none => ⟨false, false, none⟩
  | some settings =>
      if (dget settings.stocks symbolU).isSome then ⟨false, false, none⟩
      else
        match dget stock_data symbolU with
        | some d =>
            if d.volatility.isSome && d.expectedReturn.isSome then
              let settings2 : SettingsDoc :=
                { settings with
                    stocks := dinsert settings.stocks symbolU
                      ⟨d.volatility, d.expectedReturn, []⟩ }
              if saveOk then ⟨true, true, some settings2⟩ else ⟨false, true, none⟩
            else ⟨false, false, none⟩
        | none => ⟨false, false, none⟩

/-- The merge loop of `update_stock_data_nasdaq.py` lines 31-34: for each computed
symbol, overwrite the two owned fields only when the symbol is present in the
document and both computed values are non-null; other symbols are skipped. -/
def mergeStocks (stocks : List (String × StockEntry))
    (stock_data : List (String × SymbolStats)) : List (String × StockEntry) :=
  stock_data.foldl
    (fun st pd =>
      if (dget st pd.1).isSome && pd.2.volatility.isSome && pd.2.expectedReturn.isSome
      then updateFields st pd.1 pd.2
      else st) stocks

/-- `update_stock_settings`, `update_stock_data_nasdaq.py` lines 8-44. The fetched
statistics are abstracted as the `fetch` function applied to the document's symbol
list; `saveOk` abstracts whether `json.dump` succeeds. -/
def update_stock_settings (settingsLoad : Option SettingsDoc)
    (fetch : List String → List (String × SymbolStats)) (saveOk : Bool) :
    Bool × Option SettingsDoc :=
  match settingsLoad with
  | none => (false, none)
  | some settings =>
      let symbols := settings.stocks.map Prod.fst
      let stock_data := fetch symbols
      let newStocks := mergeStocks settings.stocks stock_data
      let settings2 : SettingsDoc := { settings with stocks := newStocks }
      if saveOk then (true, some settings2) else (false, none)

/-- A symbol-statistics record is all-or-nothing: both fields null or both non-null. -/
def bothOrNeither (st : SymbolStats) : Prop :=
  st.volatility.isSome ↔ st.expectedReturn.isSome

/-- Concrete two-row price series on distinct days. -/
def rows2 : List Row := [⟨0, 100⟩, ⟨1, 110⟩]

/-- Concrete two-row price series whose observations fall on the same calendar day. -/
def rows2same : List Row := [⟨0, 100⟩, ⟨0, 110⟩]

/-- Concrete three-row price series on strictly increasing days with positive prices. -/
def rows3 : List Row := [⟨0, 100⟩, ⟨1, 110⟩, ⟨2, 105⟩]

/-- A concrete non-null statistics record used as pre-existing cache content. -/
def stC : SymbolStats := ⟨some (PyFloat.val 1), some (PyFloat.val 2)⟩

/-- Cache state: no cache file on disk. -/
def noCacheFile : CacheFile := ⟨false, false, none⟩

/-- Cache state: file exists and is fresh but its content fails to parse. -/
def corruptFreshCache : CacheFile := ⟨true, true, none⟩

/-- Cache state: file exists but is stale; it parses and holds an entry for "C". -/
def staleCacheC : CacheFile := ⟨true, false, some [("C", stC)]⟩

/-! ### Association-list lemmas -/

theorem dget_dinsert_self {α : Type} (m : List (String × α)) (k : String) (v : α) :
    dget (dinsert m k v) k = some v := by
  induction m with
  | nil => simp [dinsert, dget]
  | cons p rest ih =>
      obtain ⟨k2, v2⟩ := p
      by_cases hk : k2 = k
      · simp [dinsert, hk, dget]
      · simp [dinsert, hk, dget, ih]

theorem dget_dinsert_ne {α : Type} (m : List (String × α)) (k s : String) (v : α)
    (h : s ≠ k) :
    dget (dinsert m k v) s = dget m s := by
  induction m with
  | nil => simp [dinsert, dget, Ne.symm h]
  | cons p rest ih =>
      obtain ⟨k2, v2⟩ := p
      by_cases hk : k2 = k
      · subst hk
        simp [dinsert, dget, Ne.symm h]
      · simp [dinsert, hk, dget, ih]

theorem dget_eq_none_of_not_mem {α : Type} (m : List (String × α)) (s : String)
    (h : s ∉ m.map Prod.fst) : dget m s = none := by
  induction m with
  | nil => rfl
  | cons p rest ih =>
      have h1 : p.1 ≠ s := fun he => h (by simp [he])
      have h2 : s ∉ rest.map Prod.fst := fun hm => h (by simp [hm])
      obtain ⟨k2, v⟩ := p
      simp only [dget]
      rw [if_neg h1, ih h2]

theorem foldl_dinsert_not_mem {α : Type} (f : String → α) (symbols : List String)
    (init : List (String × α)) (s : String) :
    s ∉ symbols →
      dget (symbols.foldl (fun r t => dinsert r t (f t)) init) s = dget init s := by
  induction symbols generalizing init with
  | nil => intro _; rfl
  | cons a rest ih =>
      intro hs
      have hsa : s ≠ a := fun h => hs (h ▸ List.mem_cons_self a rest)
      have hsr : s ∉ rest := fun h => hs (List.mem_cons_of_mem a h)
      rw [List.foldl_cons, ih _ hsr]
      exact dget_dinsert_ne _ _ _ _ hsa

theorem foldl_dinsert_mem {α : Type} (f : String → α) (symbols : List String)
    (init : List (String × α)) (s : String) :
    s ∈ symbols →
      dget (symbols.foldl (fun r t => dinsert r t (f t)) init) s = some (f s) := by
  induction symbols generalizing init with
  | nil => intro hs; cases hs
  | cons a rest ih =>
      intro hs
      by_cases hsr : s ∈ rest
      · rw [List.foldl_cons]
        exact ih _ hsr
      · have hsa : s = a := by
          cases hs with
          | head => rfl
          | tail _ h => exact absurd h hsr
        subst hsa
        rw [List.foldl_cons, foldl_dinsert_not_mem f rest _ s hsr]
        exact dget_dinsert_self _ _ _

/-! ### Processing-loop lemmas -/

theorem pairStep_fst_ne (g : String → Option SymbolStats)
    (acc : List (String × SymbolStats) × List (String × SymbolStats)) (a s : String)
    (h : s ≠ a) :
    dget (pairStep g acc a).1 s = dget acc.1 s := by
  unfold pairStep
  cases g a <;> simp [dget_dinsert_ne _ _ _ _ h]

theorem pairStep_snd_ne (g : String → Option SymbolStats)
    (acc : List (String × SymbolStats) × List (String × SymbolStats)) (a s : String)
    (h : s ≠ a) :
    dget (pairStep g acc a).2 s = dget acc.2 s := by
  unfold pairStep
  cases g a <;> simp [dget_dinsert_ne _ _ _ _ h]

theorem processLoop_fst_not_mem (g : String → Option SymbolStats) (symbols : List String)
    (init : List (String × SymbolStats) × List (String × SymbolStats)) (s : String) :
    s ∉ symbols → dget (processLoop g symbols init).1 s = dget init.1 s := by
  induction symbols generalizing init with
  | nil => intro _; rfl
  | cons a rest ih =>
      intro hs
      have hsa : s ≠ a := fun h => hs (h ▸ List.mem_cons_self a rest)
      have hsr : s ∉ rest := fun h => hs (List.mem_cons_of_mem a h)
      have hstep : processLoop g (a :: rest) init = processLoop g rest (pairStep g init a) := rfl
      rw [hstep, ih _ hsr]
      exact pairStep_fst_ne g init a s hsa

theorem processLoop_snd_not_mem (g : String → Option SymbolStats) (symbols : List String)
    (init : List (String × SymbolStats) × List (String × SymbolStats)) (s : String) :
    s ∉ symbols → dget (processLoop g symbols init).2 s = dget init.2 s := by
  induction symbols generalizing init with
  | nil => intro _; rfl
  | cons a rest ih =>
      intro hs
      have hsa : s ≠ a := fun h => hs (h ▸ List.mem_cons_self a rest)
      have hsr : s ∉ rest := fun h => hs (List.mem_cons_of_mem a h)
      have hstep : processLoop g (a :: rest) init = processLoop g rest (pairStep g init a) := rfl
      rw [hstep, ih _ hsr]
      exact pairStep_snd_ne g init a s hsa

theorem processLoop_fst_mem (g : String → Option SymbolStats) (symbols : List String)
    (init : List (String × SymbolStats) × List (String × SymbolStats)) (s : String) :
    s ∈ symbols →
      dget (processLoop g symbols init).1 s = some ((g s).getD nullStats) := by
  induction symbols generalizing init with
  | nil => intro hs; cases hs
  | cons a rest ih =>
      intro hs
      have hstep : processLoop g (a :: rest) init = processLoop g rest (pairStep g init a) := rfl
      by_cases hsr : s ∈ rest
      · rw [hstep]; exact ih _ hsr
      · have hsa : s = a := by
          cases hs with
          | head => rfl
          | tail _ h => exact absurd h hsr
        subst hsa
        rw [hstep, processLoop_fst_not_mem g rest _ s hsr]
        unfold pairStep
        cases hg : g s <;> simp [dget_dinsert_self]

theorem processLoop_snd_mem_some (g : String → Option SymbolStats) (symbols : List String)
    (init : List (String × SymbolStats) × List (String × SymbolStats)) (s : String)
    (st : SymbolStats) (hg : g s = some st) :
    s ∈ symbols → dget (processLoop g symbols init).2 s = some st := by
  induction symbols generalizing init with
  | nil => intro hs; cases hs
  | cons a rest ih =>
      intro hs
      have hstep : processLoop g (a :: rest) init = processLoop g rest (pairStep g init a) := rfl
      by_cases hsr : s ∈ rest
      · rw [hstep]; exact ih _ hsr
      · have hsa : s = a := by
          cases hs with
          | head => rfl
          | tail _ h => exact absurd h hsr
        subst hsa
        rw [hstep, processLoop_snd_not_mem g rest _ s hsr]
        unfold pairStep
        rw [hg]
        simp [dget_dinsert_self]

theorem pairStep_snd_lookup (g : String → Option SymbolStats)
    (acc : List (String × SymbolStats) × List (String × SymbolStats)) (a s : String)
    (st : SymbolStats) (h : dget (pairStep g acc a).2 s = some st) :
    g s = some st ∨ dget acc.2 s = some st := by
  by_cases hsa : s = a
  · subst hsa
    unfold pairStep at h
    cases hg : g s with
    | none => rw [hg] at h; exact Or.inr h
    | some st2 =>
        rw [hg] at h
        simp only [dget_dinsert_self] at h
        exact Or.inl h
  · rw [pairStep_snd_ne g acc a s hsa] at h
    exact Or.inr h

theorem processLoop_snd_lookup (g : String → Option SymbolStats) (symbols : List String)
    (init : List (String × SymbolStats) × List (String × SymbolStats)) (s : String)
    (st : SymbolStats) :
    dget (processLoop g symbols init).2 s = some st →
      g s = some st ∨ dget init.2 s = some st := by
  induction symbols generalizing init with
  | nil => exact fun h => Or.inr h
  | cons a rest ih =>
      intro h
      have hstep : processLoop g (a :: rest) init = processLoop g rest (pairStep g init a) := rfl
      rw [hstep] at h
      rcases ih (pairStep g init a) h with hg | hacc
      · exact Or.inl hg
      · exact pairStep_snd_lookup g init a s st hacc

/-! ### Shape lemmas: a successful per-symbol computation stores two non-null floats -/

theorem nasdaq_computeSymbolStats_ok_shape (ops : FloatOps) (series : List Row)
    (st : SymbolStats)
    (h : FetchVolatilityNasdaq.computeSymbolStats ops series = Except.ok st) :
    st.volatility.isSome = true ∧ st.expectedReturn.isSome = true := by
  unfold FetchVolatilityNasdaq.computeSymbolStats at h
  split at h
  · exact absurd h (by simp)
  · injection h with h1
    subst h1
    exact ⟨rfl, rfl⟩

theorem nasdaq_symbolOutcome_some_shape (ops : FloatOps)
    (dataDict : List (String × List Row)) (s : String) (st : SymbolStats)
    (h : FetchVolatilityNasdaq.symbolOutcome ops dataDict s = some st) :
    st.volatility.isSome = true ∧ st.expectedReturn.isSome = true := by
  unfold FetchVolatilityNasdaq.symbolOutcome at h
  split at h
  · exact absurd h (by simp)
  · split at h
    · exact absurd h (by simp)
    · injection h with h1
      subst h1
      next heq => exact nasdaq_computeSymbolStats_ok_shape ops _ _ heq

theorem nasdaq_symbolOutcome_none_of_absent (ops : FloatOps)
    (dataDict : List (String × List Row)) (s : String)
    (h : dget dataDict s = none) :
    FetchVolatilityNasdaq.symbolOutcome ops dataDict s = none := by
  unfold FetchVolatilityNasdaq.symbolOutcome
  rw [h]

theorem fv_trySymbol_ok_shape (ops : FloatOps) (symbols : List String)
    (data : FetchVolatility.YfData) (s : String) (st : SymbolStats)
    (h : FetchVolatility.trySymbol ops symbols data s = Except.ok st) :
    st.volatility.isSome = true ∧ st.expectedReturn.isSome = true := by
  unfold FetchVolatility.trySymbol at h
  split at h
  · exact absurd h (by simp)
  · split at h
    · exact absurd h (by simp)
    · injection h with h1
      subst h1
      exact ⟨rfl, rfl⟩

theorem fv_symbolOutcome_some_shape (ops : FloatOps) (symbols : List String)
    (data : FetchVolatility.YfData) (s : String) (st : SymbolStats)
    (h : FetchVolatility.symbolOutcome ops symbols data s = some st) :
    st.volatility.isSome = true ∧ st.expectedReturn.isSome = true := by
  unfold FetchVolatility.symbolOutcome at h
  cases ht : FetchVolatility.trySymbol ops symbols data s with
  | error e => rw [ht] at h; exact absurd h (by simp [Except.toOption])
  | ok st2 =>
      rw [ht] at h
      simp only [Except.toOption] at h
      injection h with h1
      subst h1
      exact fv_trySymbol_ok_shape ops symbols data s _ ht

/-! ### Branch lemmas for the two `get_stock_volatility_and_returns` models -/

theorem nasdaq_computePath_ok (ops : FloatOps) (symbols : List String)
    (dataDict : List (String × List Row)) (cd0 : List (String × SymbolStats))
    (hne : dataDict ≠ []) :
    FetchVolatilityNasdaq.computePath ops symbols dataDict (some cd0) =
      Except.ok
        ⟨(processLoop (FetchVolatilityNasdaq.symbolOutcome ops dataDict) symbols ([], cd0)).1,
          true,
          some (processLoop (FetchVolatilityNasdaq.symbolOutcome ops dataDict) symbols
            ([], cd0)).2⟩ := by
  unfold FetchVolatilityNasdaq.computePath
  rw [if_neg (by simp [hne])]

theorem fv_computePath_ok (ops : FloatOps) (symbols : List String)
    (d : FetchVolatility.YfData) (cd0 : List (String × SymbolStats)) :
    FetchVolatility.computePath ops symbols (some d) (some cd0) =
      Except.ok
        ⟨(processLoop (FetchVolatility.symbolOutcome ops symbols d) symbols ([], cd0)).1,
          true,
          some (processLoop (FetchVolatility.symbolOutcome ops symbols d) symbols
            ([], cd0)).2⟩ := rfl

theorem nasdaq_gvr_reaches_compute (ops : FloatOps) (symbols : List String)
    (cache : CacheFile) (dataDict : List (String × List Row))
    (hparse : cache.onDisk = true → cache.fresh = true → cache.content.isSome = true)
    (hmiss : cacheServes cache symbols = false) :
    ∃ cd0, FetchVolatilityNasdaq.get_stock_volatility_and_returns ops symbols cache dataDict =
      FetchVolatilityNasdaq.computePath ops symbols dataDict (some cd0) := by
  unfold FetchVolatilityNasdaq.get_stock_volatility_and_returns
  by_cases hu : (cache.onDisk && cache.fresh) = true
  · have h12 := hu
    rw [Bool.and_eq_true] at h12
    obtain ⟨h1, h2⟩ := h12
    cases hc : cache.content with
    | none => exact absurd (hparse h1 h2) (by rw [hc]; simp)
    | some cd =>
        have hall : symbols.all (fun s => (dget cd s).isSome) = false := by
          unfold cacheServes at hmiss
          rw [hu, hc] at hmiss
          simpa using hmiss
        rw [if_pos hu]
        exact ⟨cd, by simp [hall]⟩
  · rw [if_neg hu]
    exact ⟨[], rfl⟩

theorem fv_gvr_reaches_compute (ops : FloatOps) (symbols : List String)
    (cache : CacheFile) (data : Option FetchVolatility.YfData)
    (hparse : cache.onDisk = true → cache.fresh = true → cache.content.isSome = true)
    (hmiss : cacheServes cache symbols = false) :
    ∃ cd0, FetchVolatility.get_stock_volatility_and_returns ops symbols cache data =
      FetchVolatility.computePath ops symbols data (some cd0) := by
  unfold FetchVolatility.get_stock_volatility_and_returns
  by_cases hu : (cache.onDisk && cache.fresh) = true
  · have h12 := hu
    rw [Bool.and_eq_true] at h12
    obtain ⟨h1, h2⟩ := h12
    cases hc : cache.content with
    | none => exact absurd (hparse h1 h2) (by rw [hc]; simp)
    | some cd =>
        have hall : symbols.all (fun s => (dget cd s).isSome) = false := by
          unfold cacheServes at hmiss
          rw [hu, hc] at hmiss
          simpa using hmiss
        rw [if_pos hu]
        exact ⟨cd, by simp [hall]⟩
  · rw [if_neg hu]
    exact ⟨[], rfl⟩

/-! ### Cache-hit result lemmas -/

theorem hitResults_mem (cd : List (String × SymbolStats)) (symbols : List String)
    (s : String) (hs : s ∈ symbols) :
    dget (symbols.foldl (fun r t => dinsert r t ((dget cd t).getD nullStats)) []) s =
      some ((dget cd s).getD nullStats) :=
  foldl_dinsert_mem (fun t => (dget cd t).getD nullStats) symbols [] s hs

theorem hitResults_not_mem (cd : List (String × SymbolStats)) (symbols : List String)
    (s : String) (hs : s ∉ symbols) :
    dget (symbols.foldl (fun r t => dinsert r t ((dget cd t).getD nullStats)) []) s =
      none :=
  foldl_dinsert_not_mem (fun t => (dget cd t).getD nullStats) symbols [] s hs

/-! ### Where a result entry can come from -/

theorem nasdaq_computePath_results_shape (ops : FloatOps) (symbols : List String)
    (dataDict : List (String × List Row))
    (cacheData : Option (List (String × SymbolStats))) (o : GVROutcome)
    (h : FetchVolatilityNasdaq.computePath ops symbols dataDict cacheData = Except.ok o) :
    ∀ s st, dget o.results s = some st →
      st = nullStats ∨ FetchVolatilityNasdaq.symbolOutcome ops dataDict s = some st := by
  unfold FetchVolatilityNasdaq.computePath at h
  split at h
  · injection h with h1
    subst h1
    intro s st hst
    exact absurd hst (by simp [dget])
  · split at h
    · exact absurd h (by simp)
    · injection h with h1
      subst h1
      intro s st hst
      by_cases hs : s ∈ symbols
      · rw [processLoop_fst_mem _ symbols _ s hs] at hst
        injection hst with h2
        cases hg : FetchVolatilityNasdaq.symbolOutcome ops dataDict s with
        | none => rw [hg] at h2; simp at h2; exact Or.inl h2.symm
        | some st2 =>
            rw [hg] at h2
            simp at h2
            exact Or.inr (by rw [h2])
      · rw [processLoop_fst_not_mem _ symbols _ s hs] at hst
        exact absurd hst (by simp [dget])

theorem fv_computePath_results_shape (ops : FloatOps) (symbols : List String)
    (data : Option FetchVolatility.YfData)
    (cacheData : Option (List (String × SymbolStats))) (o : GVROutcome)
    (h : FetchVolatility.computePath ops symbols data cacheData = Except.ok o) :
    ∀ s st, dget o.results s = some st →
      st = nullStats ∨
        ∃ d, data = some d ∧ FetchVolatility.symbolOutcome ops symbols d s = some st := by
  cases data with
  | none =>
      unfold FetchVolatility.computePath at h
      injection h with h1
      subst h1
      intro s st hst
      exact absurd hst (by simp [dget])
  | some d =>
      cases cacheData with
      | none =>
          unfold FetchVolatility.computePath at h
          exact absurd h (by simp)
      | some cd =>
          unfold FetchVolatility.computePath at h
          injection h with h1
          subst h1
          intro s st hst
          by_cases hs : s ∈ symbols
          · rw [processLoop_fst_mem _ symbols _ s hs] at hst
            injection hst with h2
            cases hg : FetchVolatility.symbolOutcome ops symbols d s with
            | none => rw [hg] at h2; simp at h2; exact Or.inl h2.symm
            | some st2 =>
                rw [hg] at h2
                simp at h2
                exact Or.inr ⟨d, rfl, by rw [hg, h2]⟩
          · rw [processLoop_fst_not_mem _ symbols _ s hs] at hst
            exact absurd hst (by simp [dget])

theorem nasdaq_gvr_results_shape (ops : FloatOps) (symbols : List String)
    (cache : CacheFile) (dataDict : List (String × List Row)) (o : GVROutcome)
    (h : FetchVolatilityNasdaq.get_stock_volatility_and_returns ops symbols cache dataDict =
      Except.ok o) :
    ∀ s st, dget o.results s = some st →
      st = nullStats ∨ (∃ cd, cache.content = some cd ∧ dget cd s = some st) ∨
        FetchVolatilityNasdaq.symbolOutcome ops dataDict s = some st := by
  unfold FetchVolatilityNasdaq.get_stock_volatility_and_returns at h
  split at h
  · split at h
    · next cd hc =>
        split at h
        · injection h with h1
          subst h1
          intro s st hst
          by_cases hs : s ∈ symbols
          · rw [hitResults_mem cd symbols s hs] at hst
            injection hst with h2
            cases hv : dget cd s with
            | none => rw [hv] at h2; simp at h2; exact Or.inl h2.symm
            | some v =>
                rw [hv] at h2
                simp at h2
                exact Or.inr (Or.inl ⟨cd, hc, by rw [hv, h2]⟩)
          · rw [hitResults_not_mem cd symbols s hs] at hst
            exact absurd hst (by simp)
        · intro s st hst
          rcases nasdaq_computePath_results_shape ops symbols dataDict _ o h s st hst with
            h1 | h2
          · exact Or.inl h1
          · exact Or.inr (Or.inr h2)
    · intro s st hst
      rcases nasdaq_computePath_results_shape ops symbols dataDict _ o h s st hst with h1 | h2
      · exact Or.inl h1
      · exact Or.inr (Or.inr h2)
  · intro s st hst
    rcases nasdaq_computePath_results_shape ops symbols dataDict _ o h s st hst with h1 | h2
    · exact Or.inl h1
    · exact Or.inr (Or.inr h2)

theorem fv_gvr_results_shape (ops : FloatOps) (symbols : List String)
    (cache : CacheFile) (data : Option FetchVolatility.YfData) (o : GVROutcome)
    (h : FetchVolatility.get_stock_volatility_and_returns ops symbols cache data =
      Except.ok o) :
    ∀ s st, dget o.results s = some st →
      st = nullStats ∨ (∃ cd, cache.content = some cd ∧ dget cd s = some st) ∨
        ∃ d, data = some d ∧ FetchVolatility.symbolOutcome ops symbols d s = some st := by
  unfold FetchVolatility.get_stock_volatility_and_returns at h
  split at h
  · split at h
    · next cd hc =>
        split at h
        · injection h with h1
          subst h1
          intro s st hst
          by_cases hs : s ∈ symbols
          · rw [hitResults_mem cd symbols s hs] at hst
            injection hst with h2
            cases hv : dget cd s with
            | none => rw [hv] at h2; simp at h2; exact Or.inl h2.symm
            | some v =>
                rw [hv] at h2
                simp at h2
                exact Or.inr (Or.inl ⟨cd, hc, by rw [hv, h2]⟩)
          · rw [hitResults_not_mem cd symbols s hs] at hst
            exact absurd hst (by simp)
        · intro s st hst
          rcases fv_computePath_results_shape ops symbols data _ o h s st hst with h1 | h2
          · exact Or.inl h1
          · exact Or.inr (Or.inr h2)
    · intro s st hst
      rcases fv_computePath_results_shape ops symbols data _ o h s st hst with h1 | h2
      · exact Or.inl h1
      · exact Or.inr (Or.inr h2)
  · intro s st hst
    rcases fv_computePath_results_shape ops symbols data _ o h s st hst with h1 | h2
    · exact Or.inl h1
    · exact Or.inr (Or.inr h2)

/-! ### Where a written cache entry can come from -/

theorem nasdaq_computePath_cache_shape (ops : FloatOps) (symbols : List String)
    (dataDict : List (String × List Row))
    (cacheData : Option (List (String × SymbolStats))) (o : GVROutcome)
    (W : List (String × SymbolStats))
    (h : FetchVolatilityNasdaq.computePath ops symbols dataDict cacheData = Except.ok o)
    (hw : o.writtenCache = some W) :
    ∀ s st, dget W s = some st →
      FetchVolatilityNasdaq.symbolOutcome ops dataDict s = some st ∨
        ∃ cd0, cacheData = some cd0 ∧ dget cd0 s = some st := by
  unfold FetchVolatilityNasdaq.computePath at h
  split at h
  · injection h with h1
    subst h1
    exact absurd hw (by simp)
  · cases cacheData with
    | none => exact absurd h (by simp)
    | some cd0 =>
        injection h with h1
        subst h1
        simp only [] at hw
        injection hw with hw1
        subst hw1
        intro s st hst
        rcases processLoop_snd_lookup _ symbols ([], cd0) s st hst with hg | hinit
        · exact Or.inl hg
        · exact Or.inr ⟨cd0, rfl, hinit⟩

theorem fv_computePath_cache_shape (ops : FloatOps) (symbols : List String)
    (data : Option FetchVolatility.YfData)
    (cacheData : Option (List (String × SymbolStats))) (o : GVROutcome)
    (W : List (String × SymbolStats))
    (h : FetchVolatility.computePath ops symbols data cacheData = Except.ok o)
    (hw : o.writtenCache = some W) :
    ∀ s st, dget W s = some st →
      (∃ d, data = some d ∧ FetchVolatility.symbolOutcome ops symbols d s = some st) ∨
        ∃ cd0, cacheData = some cd0 ∧ dget cd0 s = some st := by
  cases data with
  | none =>
      unfold FetchVolatility.computePath at h
      injection h with h1
      subst h1
      exact absurd hw (by simp)
  | some d =>
      cases cacheData with
      | none =>
          unfold FetchVolatility.computePath at h
          exact absurd h (by simp)
      | some cd0 =>
          unfold FetchVolatility.computePath at h
          injection h with h1
          subst h1
          simp only [] at hw
          injection hw with hw1
          subst hw1
          intro s st hst
          rcases processLoop_snd_lookup _ symbols ([], cd0) s st hst with hg | hinit
          · exact Or.inl ⟨d, rfl, hg⟩
          · exact Or.inr ⟨cd0, rfl, hinit⟩

theorem nasdaq_gvr_cache_shape (ops : FloatOps) (symbols : List String)
    (cache : CacheFile) (dataDict : List (String × List Row)) (o : GVROutcome)
    (W : List (String × SymbolStats))
    (h : FetchVolatilityNasdaq.get_stock_volatility_and_returns ops symbols cache dataDict =
      Except.ok o)
    (hw : o.writtenCache = some W) :
    ∀ s st, dget W s = some st →
      FetchVolatilityNasdaq.symbolOutcome ops dataDict s = some st ∨
        ∃ cd, cache.content = some cd ∧ dget cd s = some st := by
  unfold FetchVolatilityNasdaq.get_stock_volatility_and_returns at h
  split at h
  · split at h
    · next cd hc =>
        split at h
        · injection h with h1
          subst h1
          exact absurd hw (by simp)
        · intro s st hst
          rcases nasdaq_computePath_cache_shape ops symbols dataDict _ o W h hw s st hst with
            h1 | ⟨cd0, hcd0, h2⟩
          · exact Or.inl h1
          · injection hcd0 with h3
            subst h3
            exact Or.inr ⟨cd, hc, h2⟩
    · intro s st hst
      rcases nasdaq_computePath_cache_shape ops symbols dataDict _ o W h hw s st hst with
        h1 | ⟨cd0, hcd0, h2⟩
      · exact Or.inl h1
      · exact absurd hcd0 (by simp)
  · intro s st hst
    rcases nasdaq_computePath_cache_shape ops symbols dataDict _ o W h hw s st hst with
      h1 | ⟨cd0, hcd0, h2⟩
    · exact Or.inl h1
    · injection hcd0 with h3
      subst h3
      exact absurd h2 (by simp [dget])

theorem fv_gvr_cache_shape (ops : FloatOps) (symbols : List String)
    (cache : CacheFile) (data : Option FetchVolatility.YfData) (o : GVROutcome)
    (W : List (String × SymbolStats))
    (h : FetchVolatility.get_stock_volatility_and_returns ops symbols cache data =
      Except.ok o)
    (hw : o.writtenCache = some W) :
    ∀ s st, dget W s = some st →
      (∃ d, data = some d ∧ FetchVolatility.symbolOutcome ops symbols d s = some st) ∨
        ∃ cd, cache.content = some cd ∧ dget cd s = some st := by
  unfold FetchVolatility.get_stock_volatility_and_returns at h
  split at h
  · split at h
    · next cd hc =>
        split at h
        · injection h with h1
          subst h1
          exact absurd hw (by simp)
        · intro s st hst
          rcases fv_computePath_cache_shape ops symbols data _ o W h hw s st hst with
            h1 | ⟨cd0, hcd0, h2⟩
          · exact Or.inl h1
          · injection hcd0 with h3
            subst h3
            exact Or.inr ⟨cd, hc, h2⟩
    · intro s st hst
      rcases fv_computePath_cache_shape ops symbols data _ o W h hw s st hst with
        h1 | ⟨cd0, hcd0, h2⟩
      · exact Or.inl h1
      · exact absurd hcd0 (by simp)
  · intro s st hst
    rcases fv_computePath_cache_shape ops symbols data _ o W h hw s st hst with
      h1 | ⟨cd0, hcd0, h2⟩
    · exact Or.inl h1
    · injection hcd0 with h3
      subst h3
      exact absurd h2 (by simp [dget])

/-! ### Settings-merge lemmas -/

theorem dget_updateFields_self (st : List (String × StockEntry)) (k : String)
    (d : SymbolStats) :
    dget (updateFields st k d) k = (dget st k).map (applyStats d) := by
  induction st with
  | nil => rfl
  | cons p rest ih =>
      obtain ⟨k2, e⟩ := p
      by_cases hk : k2 = k
      · subst hk
        simp [updateFields, dget]
      · simp [updateFields, dget, hk, ih]

theorem dget_updateFields_ne (st : List (String × StockEntry)) (k s : String)
    (d : SymbolStats) (h : s ≠ k) :
    dget (updateFields st k d) s = dget st s := by
  induction st with
  | nil => rfl
  | cons p rest ih =>
      obtain ⟨k2, e⟩ := p
      by_cases hk : k2 = k
      · subst hk
        have hks : ¬(k2 = s) := fun he => h he.symm
        simp [updateFields, dget, hks, ih]
      · by_cases hs : k2 = s
        · simp [updateFields, dget, hk, hs, h]
        · simp [updateFields, dget, hk, hs, ih]

theorem update_fold_dget (sd : List (String × SymbolStats)) :
    ∀ (st : List (String × StockEntry)) (s : String),
      (sd.map Prod.fst).Nodup →
      dget (sd.foldl
        (fun st2 pd =>
          if (dget st2 pd.1).isSome && pd.2.volatility.isSome && pd.2.expectedReturn.isSome
          then updateFields st2 pd.1 pd.2 else st2) st) s =
      (match dget sd s with
       | some d =>
           if d.volatility.isSome && d.expectedReturn.isSome
           then (dget st s).map (applyStats d) else dget st s
       | none => dget st s) := by
  induction sd with
  | nil => intro st s _; rfl
  | cons pd rest ih =>
      intro st s hnd
      obtain ⟨k, d⟩ := pd
      rw [List.map_cons, List.nodup_cons] at hnd
      obtain ⟨hk, hnd2⟩ := hnd
      rw [List.foldl_cons, ih _ s hnd2]
      by_cases hks : k = s
      · subst hks
        rw [dget_eq_none_of_not_mem rest k hk]
        have hhead : dget ((k, d) :: rest) k = some d := by simp [dget]
        rw [hhead]
        cases hopt : dget st k with
        | none =>
            simp only [Option.isSome_none, Bool.false_and, Bool.false_eq_true, if_false]
            rw [hopt]
            cases hvol : d.volatility.isSome && d.expectedReturn.isSome <;> simp [hvol]
        | some e =>
            cases hvol : d.volatility.isSome && d.expectedReturn.isSome with
            | false => simp [Bool.and_assoc, hvol, hopt]
            | true =>
                simp only [Bool.and_assoc, hvol, Option.isSome_some, Bool.true_and, if_true]
                rw [dget_updateFields_self st k d, hopt]
      · have hhead : dget ((k, d) :: rest) s = dget rest s := by
          simp only [dget]
          rw [if_neg hks]
        rw [hhead]
        have hstep :
            dget (if (dget st k).isSome && d.volatility.isSome && d.expectedReturn.isSome
              then updateFields st k d else st) s = dget st s := by
          split
          · exact dget_updateFields_ne st k s d (fun he => hks he.symm)
          · rfl
        rw [hstep]

/-! ### Statistics lemmas -/

theorem dailyLogReturns_length (logf : ℚ → ℚ) (prices : List ℚ) :
    (dailyLogReturns logf prices).length = prices.length - 1 := by
  simp [dailyLogReturns]

theorem sampleVariance_nonneg (xs : List ℚ) (h2 : 2 ≤ xs.length) :
    0 ≤ sampleVariance xs := by
  unfold sampleVariance
  apply div_nonneg
  · apply List.sum_nonneg
    intro x hx
    obtain ⟨y, hy, rfl⟩ := List.mem_map.mp hx
    exact sq_nonneg _
  · have h : (2 : ℚ) ≤ (xs.length : ℚ) := by exact_mod_cast h2
    linarith

theorem volatility_val_of_three (ops : FloatOps) (series : List Row)
    (hlen : 3 ≤ series.length) :
    calculate_annualized_volatility ops series =
      PyFloat.val
        (ops.sqrtf (sampleVariance (dailyLogReturns ops.logf (series.map Row.price)))
          * ops.sqrtf 252 * 100) := by
  have hl : (dailyLogReturns ops.logf (series.map Row.price)).length = series.length - 1 := by
    rw [dailyLogReturns_length, List.length_map]
  have hnot : ¬ (dailyLogReturns ops.logf (series.map Row.price)).length < 2 := by
    rw [hl]; omega
  simp [calculate_annualized_volatility, sampleStd, hnot]

/-! ### Claims -/

/-- Claim C1 (corrected): on a nonempty canonical price series whose first and last
observations fall on the same calendar day, the NASDAQ implementation of
`calculate_expected_return` returns 0.0 without raising, but the yfinance
implementation in `fetch_volatility.py` has no zero-day guard and raises
ZeroDivisionError at `365 / days` (which its caller catches per symbol). -/
theorem claim1_same_day_expected_return (ops : FloatOps) (series : List Row) (f l : Row)
    (hh : series.head? = some f) (hl : series.getLast? = some l)
    (hd : l.date = f.date) :
    FetchVolatilityNasdaq.calculate_expected_return ops series = Except.ok 0 ∧
    FetchVolatility.calculate_expected_return ops series = Except.error () := by
  have hdays : l.date - f.date = 0 := by omega
  unfold FetchVolatilityNasdaq.calculate_expected_return
    FetchVolatility.calculate_expected_return
  rw [hh, hl]
  simp [hdays]

/-- Claim C1, counterexample to the claim as stated: on a 2-row series with identical
dates, `fetch_volatility.py`'s `calculate_expected_return` raises a division error
instead of returning 0.0. -/
theorem claim1_counterexample :
    FetchVolatility.calculate_expected_return idOps rows2same = Except.error () := by
  decide

/-- Witness for the amended Claim C1 at the concrete same-day 2-row series. -/
theorem claim1_witness :
    (rows2same.head? = some ⟨0, 100⟩ ∧ rows2same.getLast? = some ⟨0, 110⟩) ∧
      (FetchVolatilityNasdaq.calculate_expected_return idOps rows2same = Except.ok 0 ∧
       FetchVolatility.calculate_expected_return idOps rows2same = Except.error ()) :=
  ⟨⟨by decide, by decide⟩,
    claim1_same_day_expected_return idOps rows2same ⟨0, 100⟩ ⟨0, 110⟩ (by decide) (by decide)
      (by decide)⟩

/-- Claim C2 (amended): for a valid price series of length ≥ 3 with strictly
increasing dates and positive prices, the annualized volatility is a finite value
≥ 0 whenever the abstract `np.sqrt` maps nonnegative inputs to nonnegative outputs
(as the real square root does). Length 2 is excluded: see the counterexample. -/
theorem claim2_volatility_nonneg_finite (ops : FloatOps) (series : List Row)
    (hlen : 3 ≤ series.length)
    (hpos : ∀ r ∈ series, 0 < r.price)
    (hdates : series.Pairwise (fun a b => a.date < b.date))
    (hsqrt : ∀ q : ℚ, 0 ≤ q → 0 ≤ ops.sqrtf q) :
    ∃ q : ℚ, calculate_annualized_volatility ops series = PyFloat.val q ∧ 0 ≤ q := by
  refine ⟨_, volatility_val_of_three ops series hlen, ?_⟩
  have hl : (dailyLogReturns ops.logf (series.map Row.price)).length = series.length - 1 := by
    rw [dailyLogReturns_length, List.length_map]
  have hvar : 0 ≤ sampleVariance (dailyLogReturns ops.logf (series.map Row.price)) :=
    sampleVariance_nonneg _ (by omega)
  have h1 := hsqrt _ hvar
  have h2 := hsqrt 252 (by norm_num)
  exact mul_nonneg (mul_nonneg h1 h2) (by norm_num)

/-- Claim C2, counterexample to the claim as stated: a valid 2-row series (distinct
increasing dates, positive prices) yields one single daily return, whose sample
standard deviation (ddof = 1) is NaN in pandas, so the volatility is NaN — not a
finite nonnegative value. -/
theorem claim2_counterexample :
    ¬ ∃ q : ℚ, calculate_annualized_volatility idOps rows2 = PyFloat.val q ∧ 0 ≤ q := by
  rintro ⟨q, hq, -⟩
  rw [show calculate_annualized_volatility idOps rows2 = PyFloat.nan from by decide] at hq
  exact PyFloat.noConfusion hq

/-- Witness for the amended Claim C2 at a concrete 3-row series. -/
theorem claim2_witness :
    3 ≤ rows3.length ∧
      ∃ q : ℚ, calculate_annualized_volatility idOps rows3 = PyFloat.val q ∧ 0 ≤ q :=
  ⟨by decide,
    claim2_volatility_nonneg_finite idOps rows3 (by decide) (by decide) (by decide)
      (fun _ hq => hq)⟩

/-- Claim C3 (code bug): a fresh cache file whose content fails to parse is NOT
treated as a plain cache miss. The `except` handler only logs; afterwards line 137
(`fetch_volatility.py`) / line 256 (`fetch_volatility_nasdaq.py`) evaluates
`cache_data = {} if not (cache_exists and cache_fresh) else cache_data`, and since
the cache was fresh the `else` arm reads the never-assigned local `cache_data`,
raising UnboundLocalError out of `get_stock_volatility_and_returns` whenever the
subsequent fetch returned usable data. This theorem evaluates both models at the
failing input (corrupt fresh cache, one symbol, successful fetch). -/
theorem claim3_corrupt_cache_crash :
    FetchVolatilityNasdaq.get_stock_volatility_and_returns idOps ["A"] corruptFreshCache
        [("A", rows3)] = Except.error () ∧
    FetchVolatility.get_stock_volatility_and_returns idOps ["A"] corruptFreshCache
        (some (FetchVolatility.YfData.single rows3)) = Except.error () := by
  decide

theorem mergeStocks_dget (sd : List (String × SymbolStats))
    (st : List (String × StockEntry)) (s : String)
    (hnd : (sd.map Prod.fst).Nodup) :
    dget (mergeStocks st sd) s =
      (match dget sd s with
       | some d =>
           if d.volatility.isSome && d.expectedReturn.isSome
           then (dget st s).map (applyStats d) else dget st s
       | none => dget st s) :=
  update_fold_dget sd st s hnd

/-- Claim C4, counterexample to the claim as stated: when every requested symbol's
provider fetch fails, the call returns an empty result mapping, so the failed symbol
"A" does not appear with null fields at all (in both provider implementations). -/
theorem claim4_counterexample :
    FetchVolatilityNasdaq.get_stock_volatility_and_returns idOps ["A"] noCacheFile [] =
        Except.ok ⟨[], true, none⟩ ∧
    FetchVolatility.get_stock_volatility_and_returns idOps ["A"] noCacheFile none =
        Except.ok ⟨[], true, none⟩ ∧
    dget ([] : List (String × SymbolStats)) "A" = none := by
  decide

/-- Claim C4 (amended): when the fetch step yields data for at least one symbol (a
nonempty `data_dict` for the NASDAQ provider, a non-None table for the yfinance
provider), the call does not raise, every symbol whose fetch failed appears in the
result mapping with both fields null, and every symbol whose per-symbol computation
succeeds appears with both fields non-null; when every symbol fails the call returns
an empty mapping (see the counterexample). Hypotheses: the cache does not serve the
request and, if fresh, parses (excluding the separate crash of claim C3). -/
theorem claim4_partial_failure (ops : FloatOps) (symbols : List String) (cache : CacheFile)
    (dataDict : List (String × List Row)) (d : FetchVolatility.YfData)
    (hparse : cache.onDisk = true → cache.fresh = true → cache.content.isSome = true)
    (hmiss : cacheServes cache symbols = false)
    (hne : dataDict ≠ []) :
    (∃ o, FetchVolatilityNasdaq.get_stock_volatility_and_returns ops symbols cache dataDict =
        Except.ok o ∧ o.fetchInvoked = true ∧
      (∀ s ∈ symbols, dget dataDict s = none → dget o.results s = some nullStats) ∧
      (∀ s ∈ symbols, ∀ st, FetchVolatilityNasdaq.symbolOutcome ops dataDict s = some st →
        dget o.results s = some st ∧ st.volatility.isSome = true ∧
          st.expectedReturn.isSome = true)) ∧
    (∃ o, FetchVolatility.get_stock_volatility_and_returns ops symbols cache (some d) =
        Except.ok o ∧ o.fetchInvoked = true ∧
      (∀ s ∈ symbols, FetchVolatility.symbolOutcome ops symbols d s = none →
        dget o.results s = some nullStats) ∧
      (∀ s ∈ symbols, ∀ st, FetchVolatility.symbolOutcome ops symbols d s = some st →
        dget o.results s = some st ∧ st.volatility.isSome = true ∧
          st.expectedReturn.isSome = true)) := by
  constructor
  · obtain ⟨cd0, heq⟩ := nasdaq_gvr_reaches_compute ops symbols cache dataDict hparse hmiss
    rw [heq, nasdaq_computePath_ok ops symbols dataDict cd0 hne]
    refine ⟨_, rfl, rfl, ?_, ?_⟩
    · intro s hs habs
      rw [processLoop_fst_mem _ symbols _ s hs,
        nasdaq_symbolOutcome_none_of_absent ops dataDict s habs]
      rfl
    · intro s hs st hst
      refine ⟨?_, (nasdaq_symbolOutcome_some_shape ops dataDict s st hst).1,
        (nasdaq_symbolOutcome_some_shape ops dataDict s st hst).2⟩
      rw [processLoop_fst_mem _ symbols _ s hs, hst]
      rfl
  · obtain ⟨cd0, heq⟩ := fv_gvr_reaches_compute ops symbols cache (some d) hparse hmiss
    rw [heq, fv_computePath_ok ops symbols d cd0]
    refine ⟨_, rfl, rfl, ?_, ?_⟩
    · intro s hs habs
      rw [processLoop_fst_mem _ symbols _ s hs, habs]
      rfl
    · intro s hs st hst
      refine ⟨?_, (fv_symbolOutcome_some_shape ops symbols d s st hst).1,
        (fv_symbolOutcome_some_shape ops symbols d s st hst).2⟩
      rw [processLoop_fst_mem _ symbols _ s hs, hst]
      rfl

/-- Witness for the amended Claim C4: batch {A, B} where B's fetch fails and A's
succeeds, with no cache on disk. -/
theorem claim4_witness :
    ([("A", rows3)] ≠ ([] : List (String × List Row))) ∧
    ((∃ o, FetchVolatilityNasdaq.get_stock_volatility_and_returns idOps ["A", "B"]
        noCacheFile [("A", rows3)] = Except.ok o ∧ o.fetchInvoked = true ∧
      (∀ s ∈ ["A", "B"], dget [("A", rows3)] s = none → dget o.results s = some nullStats) ∧
      (∀ s ∈ ["A", "B"], ∀ st,
        FetchVolatilityNasdaq.symbolOutcome idOps [("A", rows3)] s = some st →
        dget o.results s = some st ∧ st.volatility.isSome = true ∧
          st.expectedReturn.isSome = true)) ∧
    (∃ o, FetchVolatility.get_stock_volatility_and_returns idOps ["A", "B"] noCacheFile
        (some (FetchVolatility.YfData.grouped [("A", rows3)])) = Except.ok o ∧
      o.fetchInvoked = true ∧
      (∀ s ∈ ["A", "B"],
        FetchVolatility.symbolOutcome idOps ["A", "B"]
          (FetchVolatility.YfData.grouped [("A", rows3)]) s = none →
        dget o.results s = some nullStats) ∧
      (∀ s ∈ ["A", "B"], ∀ st,
        FetchVolatility.symbolOutcome idOps ["A", "B"]
          (FetchVolatility.YfData.grouped [("A", rows3)]) s = some st →
        dget o.results s = some st ∧ st.volatility.isSome = true ∧
          st.expectedReturn.isSome = true))) :=
  ⟨by decide,
    claim4_partial_failure idOps ["A", "B"] noCacheFile [("A", rows3)]
      (FetchVolatility.YfData.grouped [("A", rows3)]) (by decide) (by decide) (by decide)⟩

/-- Claim C5: a cache file that exists, is fresh, parses, and covers every requested
symbol is served directly — the provider fetch never runs, no cache write happens,
and each requested symbol's returned statistics are exactly the cached ones (both
provider implementations). Reading back a previously written cache that covers the
request is the instance `cd := written content`, so a write followed by a covered
read within the freshness window round-trips the stored statistics unchanged. -/
theorem claim5_fresh_covered_cache_served (opsN opsF : FloatOps) (symbols : List String)
    (cd : List (String × SymbolStats)) (dataDict : List (String × List Row))
    (data : Option FetchVolatility.YfData)
    (hcov : ∀ s ∈ symbols, (dget cd s).isSome = true) :
    (∃ o, FetchVolatilityNasdaq.get_stock_volatility_and_returns opsN symbols
        ⟨true, true, some cd⟩ dataDict = Except.ok o ∧
      o.fetchInvoked = false ∧ o.writtenCache = none ∧
      ∀ s ∈ symbols, dget o.results s = dget cd s) ∧
    (∃ o, FetchVolatility.get_stock_volatility_and_returns opsF symbols
        ⟨true, true, some cd⟩ data = Except.ok o ∧
      o.fetchInvoked = false ∧ o.writtenCache = none ∧
      ∀ s ∈ symbols, dget o.results s = dget cd s) := by
  have hall : symbols.all (fun s => (dget cd s).isSome) = true :=
    List.all_eq_true.mpr hcov
  constructor
  · have heq : FetchVolatilityNasdaq.get_stock_volatility_and_returns opsN symbols
        ⟨true, true, some cd⟩ dataDict =
        Except.ok ⟨symbols.foldl (fun r t => dinsert r t ((dget cd t).getD nullStats)) [],
          false, none⟩ := by
      unfold FetchVolatilityNasdaq.get_stock_volatility_and_returns
      simp [hall]
    refine ⟨_, heq, rfl, rfl, ?_⟩
    intro s hs
    rw [hitResults_mem cd symbols s hs]
    cases hv : dget cd s with
    | none => exact absurd (hcov s hs) (by rw [hv]; simp)
    | some v => rfl
  · have heq : FetchVolatility.get_stock_volatility_and_returns opsF symbols
        ⟨true, true, some cd⟩ data =
        Except.ok ⟨symbols.foldl (fun r t => dinsert r t ((dget cd t).getD nullStats)) [],
          false, none⟩ := by
      unfold FetchVolatility.get_stock_volatility_and_returns
      simp [hall]
    refine ⟨_, heq, rfl, rfl, ?_⟩
    intro s hs
    rw [hitResults_mem cd symbols s hs]
    cases hv : dget cd s with
    | none => exact absurd (hcov s hs) (by rw [hv]; simp)
    | some v => rfl

/-- Witness for Claim C5: a fresh cache holding "A" serves the request ["A"]. -/
theorem claim5_witness :
    (∀ s ∈ ["A"], (dget [("A", stC)] s).isSome = true) ∧
    ((∃ o, FetchVolatilityNasdaq.get_stock_volatility_and_returns idOps ["A"]
        ⟨true, true, some [("A", stC)]⟩ [] = Except.ok o ∧
      o.fetchInvoked = false ∧ o.writtenCache = none ∧
      ∀ s ∈ ["A"], dget o.results s = dget [("A", stC)] s) ∧
    (∃ o, FetchVolatility.get_stock_volatility_and_returns idOps ["A"]
        ⟨true, true, some [("A", stC)]⟩ none = Except.ok o ∧
      o.fetchInvoked = false ∧ o.writtenCache = none ∧
      ∀ s ∈ ["A"], dget o.results s = dget [("A", stC)] s)) :=
  ⟨by decide,
    claim5_fresh_covered_cache_served idOps idOps ["A"] [("A", stC)] [] none (by decide)⟩

/-- Claim C6, counterexample to the claim as stated: a recompute triggered by a STALE
cache (a cache miss) does not merge into the prior contents. With a stale cache
holding "C" and a request for "A", both implementations rewrite the cache without
the previously cached symbol "C": line 137 / line 256 resets `cache_data` to `{}`
whenever the cache was not both existing and fresh. -/
theorem claim6_counterexample :
    (FetchVolatilityNasdaq.get_stock_volatility_and_returns idOps ["A"] staleCacheC
        [("A", rows3)]).map (fun o => o.writtenCache.map (fun w => dget w "C")) =
      Except.ok (some none) ∧
    (FetchVolatility.get_stock_volatility_and_returns idOps ["A"] staleCacheC
        (some (FetchVolatility.YfData.single rows3))).map
        (fun o => o.writtenCache.map (fun w => dget w "C")) =
      Except.ok (some none) := by
  decide

/-- Claim C6 (amended): only a recompute triggered by a fresh, readable cache with
partial symbol coverage merges the new results into the prior cache contents: every
previously cached symbol outside the request keeps its entry in the rewritten cache,
and every requested symbol whose computation succeeds is written. When the cache is
absent, stale, or unreadable, the rewrite starts from an empty mapping and prior
entries are dropped (see the counterexample). -/
theorem claim6_fresh_partial_merge (opsN opsF : FloatOps) (symbols : List String)
    (cd : List (String × SymbolStats)) (dataDict : List (String × List Row))
    (d : FetchVolatility.YfData)
    (hmiss : symbols.all (fun s => (dget cd s).isSome) = false)
    (hne : dataDict ≠ []) :
    (∃ o W, FetchVolatilityNasdaq.get_stock_volatility_and_returns opsN symbols
        ⟨true, true, some cd⟩ dataDict = Except.ok o ∧
      o.writtenCache = some W ∧
      (∀ p, p ∉ symbols → dget W p = dget cd p) ∧
      (∀ s ∈ symbols, ∀ st, FetchVolatilityNasdaq.symbolOutcome opsN dataDict s = some st →
        dget W s = some st)) ∧
    (∃ o W, FetchVolatility.get_stock_volatility_and_returns opsF symbols
        ⟨true, true, some cd⟩ (some d) = Except.ok o ∧
      o.writtenCache = some W ∧
      (∀ p, p ∉ symbols → dget W p = dget cd p) ∧
      (∀ s ∈ symbols, ∀ st, FetchVolatility.symbolOutcome opsF symbols d s = some st →
        dget W s = some st)) := by
  constructor
  · have heq : FetchVolatilityNasdaq.get_stock_volatility_and_returns opsN symbols
        ⟨true, true, some cd⟩ dataDict =
        FetchVolatilityNasdaq.computePath opsN symbols dataDict (some cd) := by
      unfold FetchVolatilityNasdaq.get_stock_volatility_and_returns
      simp [hmiss]
    rw [heq, nasdaq_computePath_ok opsN symbols dataDict cd hne]
    refine ⟨_, _, rfl, rfl, ?_, ?_⟩
    · intro p hp
      exact processLoop_snd_not_mem _ symbols _ p hp
    · intro s hs st hst
      exact processLoop_snd_mem_some _ symbols _ s st hst hs
  · have heq : FetchVolatility.get_stock_volatility_and_returns opsF symbols
        ⟨true, true, some cd⟩ (some d) =
        FetchVolatility.computePath opsF symbols (some d) (some cd) := by
      unfold FetchVolatility.get_stock_volatility_and_returns
      simp [hmiss]
    rw [heq, fv_computePath_ok opsF symbols d cd]
    refine ⟨_, _, rfl, rfl, ?_, ?_⟩
    · intro p hp
      exact processLoop_snd_not_mem _ symbols _ p hp
    · intro s hs st hst
      exact processLoop_snd_mem_some _ symbols _ s st hst hs

/-- Witness for the amended Claim C6: fresh cache holding only "C", request {A, B},
both fetched successfully. -/
theorem claim6_witness :
    ((["A", "B"].all (fun s => (dget [("C", stC)] s).isSome)) = false) ∧
    ((∃ o W, FetchVolatilityNasdaq.get_stock_volatility_and_returns idOps ["A", "B"]
        ⟨true, true, some [("C", stC)]⟩ [("A", rows3), ("B", rows3)] = Except.ok o ∧
      o.writtenCache = some W ∧
      (∀ p, p ∉ ["A", "B"] → dget W p = dget [("C", stC)] p) ∧
      (∀ s ∈ ["A", "B"], ∀ st,
        FetchVolatilityNasdaq.symbolOutcome idOps [("A", rows3), ("B", rows3)] s = some st →
        dget W s = some st)) ∧
    (∃ o W, FetchVolatility.get_stock_volatility_and_returns idOps ["A", "B"]
        ⟨true, true, some [("C", stC)]⟩
        (some (FetchVolatility.YfData.grouped [("A", rows3), ("B", rows3)])) =
          Except.ok o ∧
      o.writtenCache = some W ∧
      (∀ p, p ∉ ["A", "B"] → dget W p = dget [("C", stC)] p) ∧
      (∀ s ∈ ["A", "B"], ∀ st,
        FetchVolatility.symbolOutcome idOps ["A", "B"]
          (FetchVolatility.YfData.grouped [("A", rows3), ("B", rows3)]) s = some st →
        dget W s = some st))) :=
  ⟨by decide,
    claim6_fresh_partial_merge idOps idOps ["A", "B"] [("C", stC)]
      [("A", rows3), ("B", rows3)]
      (FetchVolatility.YfData.grouped [("A", rows3), ("B", rows3)]) (by decide) (by decide)⟩

/-- Claim C7: in every result mapping returned by either implementation of
`get_stock_volatility_and_returns`, each symbol entry has volatility null iff
expectedReturn null — a successful computation stores both as non-null floats, a
per-symbol failure stores both as null, and entries served from the cache inherit
the invariant from the cache file's entries (hypothesis `hcache`). -/
theorem claim7_both_null_or_both_set (opsN opsF : FloatOps) (symbols : List String)
    (cache : CacheFile) (dataDict : List (String × List Row))
    (data : Option FetchVolatility.YfData)
    (hcache : ∀ cd, cache.content = some cd →
      ∀ s st, dget cd s = some st → bothOrNeither st) :
    (∀ o, FetchVolatilityNasdaq.get_stock_volatility_and_returns opsN symbols cache dataDict =
        Except.ok o →
      ∀ s st, dget o.results s = some st → bothOrNeither st) ∧
    (∀ o, FetchVolatility.get_stock_volatility_and_returns opsF symbols cache data =
        Except.ok o →
      ∀ s st, dget o.results s = some st → bothOrNeither st) := by
  constructor
  · intro o ho s st hst
    rcases nasdaq_gvr_results_shape opsN symbols cache dataDict o ho s st hst with
      h1 | ⟨cd, hc, h2⟩ | h3
    · subst h1
      exact Iff.rfl
    · exact hcache cd hc s st h2
    · obtain ⟨hv, he⟩ := nasdaq_symbolOutcome_some_shape opsN dataDict s st h3
      unfold bothOrNeither
      rw [hv, he]
  · intro o ho s st hst
    rcases fv_gvr_results_shape opsF symbols cache data o ho s st hst with
      h1 | ⟨cd, hc, h2⟩ | ⟨d, hd, h3⟩
    · subst h1
      exact Iff.rfl
    · exact hcache cd hc s st h2
    · obtain ⟨hv, he⟩ := fv_symbolOutcome_some_shape opsF symbols d s st h3
      unfold bothOrNeither
      rw [hv, he]

/-- Witness for Claim C7 at a concrete run with no cache on disk. -/
theorem claim7_witness :
    (∀ cd, noCacheFile.content = some cd →
      ∀ s st, dget cd s = some st → bothOrNeither st) ∧
    ((∀ o, FetchVolatilityNasdaq.get_stock_volatility_and_returns idOps ["A", "B"]
        noCacheFile [("A", rows3)] = Except.ok o →
      ∀ s st, dget o.results s = some st → bothOrNeither st) ∧
    (∀ o, FetchVolatility.get_stock_volatility_and_returns idOps ["A", "B"] noCacheFile
        (some (FetchVolatility.YfData.grouped [("A", rows3)])) = Except.ok o →
      ∀ s st, dget o.results s = some st → bothOrNeither st)) :=
  ⟨fun _ h => Option.noConfusion h,
    claim7_both_null_or_both_set idOps idOps ["A", "B"] noCacheFile [("A", rows3)]
      (some (FetchVolatility.YfData.grouped [("A", rows3)]))
      (fun _ h => Option.noConfusion h)⟩

/-- Claim C10: every entry of the cache content handed to `json.dump` has both
fields non-null, in both implementations: the per-symbol loop updates `cache_data`
only in the successful try-block branch, where both fields are freshly computed
floats, and entries retained from the parsed prior cache are non-null by hypothesis
`hcache`. Null statistics for failed symbols reach only the returned results. -/
theorem claim10_cache_entries_non_null (opsN opsF : FloatOps) (symbols : List String)
    (cache : CacheFile) (dataDict : List (String × List Row))
    (data : Option FetchVolatility.YfData)
    (hcache : ∀ cd, cache.content = some cd →
      ∀ s st, dget cd s = some st →
        st.volatility.isSome = true ∧ st.expectedReturn.isSome = true) :
    (∀ o W, FetchVolatilityNasdaq.get_stock_volatility_and_returns opsN symbols cache
        dataDict = Except.ok o → o.writtenCache = some W →
      ∀ s st, dget W s = some st →
        st.volatility.isSome = true ∧ st.expectedReturn.isSome = true) ∧
    (∀ o W, FetchVolatility.get_stock_volatility_and_returns opsF symbols cache data =
        Except.ok o → o.writtenCache = some W →
      ∀ s st, dget W s = some st →
        st.volatility.isSome = true ∧ st.expectedReturn.isSome = true) := by
  constructor
  · intro o W ho hw s st hst
    rcases nasdaq_gvr_cache_shape opsN symbols cache dataDict o W ho hw s st hst with
      h1 | ⟨cd, hc, h2⟩
    · exact nasdaq_symbolOutcome_some_shape opsN dataDict s st h1
    · exact hcache cd hc s st h2
  · intro o W ho hw s st hst
    rcases fv_gvr_cache_shape opsF symbols cache data o W ho hw s st hst with
      ⟨d, hd, h1⟩ | ⟨cd, hc, h2⟩
    · exact fv_symbolOutcome_some_shape opsF symbols d s st h1
    · exact hcache cd hc s st h2

/-- Witness for Claim C10 at a concrete run with no cache on disk. -/
theorem claim10_witness :
    (∀ cd, noCacheFile.content = some cd →
      ∀ s st, dget cd s = some st →
        st.volatility.isSome = true ∧ st.expectedReturn.isSome = true) ∧
    ((∀ o W, FetchVolatilityNasdaq.get_stock_volatility_and_returns idOps ["A", "B"]
        noCacheFile [("A", rows3)] = Except.ok o → o.writtenCache = some W →
      ∀ s st, dget W s = some st →
        st.volatility.isSome = true ∧ st.expectedReturn.isSome = true) ∧
    (∀ o W, FetchVolatility.get_stock_volatility_and_returns idOps ["A", "B"] noCacheFile
        (some (FetchVolatility.YfData.grouped [("A", rows3)])) = Except.ok o →
        o.writtenCache = some W →
      ∀ s st, dget W s = some st →
        st.volatility.isSome = true ∧ st.expectedReturn.isSome = true)) :=
  ⟨fun _ h => Option.noConfusion h,
    claim10_cache_entries_non_null idOps idOps ["A", "B"] noCacheFile [("A", rows3)]
      (some (FetchVolatility.YfData.grouped [("A", rows3)]))
      (fun _ h => Option.noConfusion h)⟩

/-- Claim C8: when the uppercased symbol is already present in `settings["stocks"]`,
`add_stock` returns False before fetching anything, attempts no write, and the
settings document on disk is untouched. -/
theorem claim8_add_existing_rejected (settings : SettingsDoc) (symbol : String)
    (stock_data : List (String × SymbolStats)) (saveOk : Bool)
    (h : (dget settings.stocks (pyUpper symbol)).isSome = true) :
    add_stock (some settings) symbol stock_data saveOk = ⟨false, false, none⟩ := by
  unfold add_stock
  simp [h]

/-- Witness for Claim C8: adding "aapl" when "AAPL" is already present. -/
theorem claim8_witness :
    ((dget [("AAPL", (⟨some (PyFloat.val 1), some (PyFloat.val 2), [("x", 3)]⟩ :
        StockEntry))] (pyUpper "aapl")).isSome = true) ∧
    add_stock
        (some ⟨[("AAPL", ⟨some (PyFloat.val 1), some (PyFloat.val 2), [("x", 3)]⟩)], []⟩)
        "aapl" [] true = ⟨false, false, none⟩ :=
  ⟨by decide,
    claim8_add_existing_rejected
      ⟨[("AAPL", ⟨some (PyFloat.val 1), some (PyFloat.val 2), [("x", 3)]⟩)], []⟩
      "aapl" [] true (by decide)⟩

/-- Claim C9: the bulk-update synchronizer rewrites, for each symbol that is both in
the freshly computed statistics with two non-null values and present in the settings
document, exactly the entry's volatility and expectedReturn (via `applyStats`, which
keeps every other field of the entry); every other stock entry and the rest of the
document are returned unchanged, and computed symbols absent from the document are
skipped (lookups outside the document stay absent). -/
theorem claim9_bulk_update_frame (settings : SettingsDoc)
    (fetch : List String → List (String × SymbolStats))
    (hnodup : ((fetch (settings.stocks.map Prod.fst)).map Prod.fst).Nodup) :
    ∃ doc2, update_stock_settings (some settings) fetch true = (true, some doc2) ∧
      doc2.rest = settings.rest ∧
      (∀ s e, dget settings.stocks s = some e →
        dget doc2.stocks s =
          some (match dget (fetch (settings.stocks.map Prod.fst)) s with
            | some d =>
                if d.volatility.isSome && d.expectedReturn.isSome then applyStats d e
                else e
            | none => e)) ∧
      (∀ s, dget settings.stocks s = none → dget doc2.stocks s = none) := by
  refine ⟨⟨mergeStocks settings.stocks (fetch (settings.stocks.map Prod.fst)),
    settings.rest⟩, rfl, rfl, ?_, ?_⟩
  · intro s e he
    show dget (mergeStocks settings.stocks (fetch (settings.stocks.map Prod.fst))) s = _
    rw [mergeStocks_dget _ settings.stocks s hnodup, he]
    cases hd : dget (fetch (settings.stocks.map Prod.fst)) s with
    | none => rfl
    | some d =>
        cases hcond : d.volatility.isSome && d.expectedReturn.isSome with
        | false => simp [hcond]
        | true => simp [hcond]
  · intro s he
    show dget (mergeStocks settings.stocks (fetch (settings.stocks.map Prod.fst))) s = none
    rw [mergeStocks_dget _ settings.stocks s hnodup, he]
    cases hd : dget (fetch (settings.stocks.map Prod.fst)) s with
    | none => rfl
    | some d =>
        cases hcond : d.volatility.isSome && d.expectedReturn.isSome with
        | false => simp [hcond]
        | true => simp [hcond]

/-- Witness for Claim C9 at a concrete document and fetch result. -/
theorem claim9_witness :
    ((([("A", (⟨some (PyFloat.val 9), some (PyFloat.val 9)⟩ : SymbolStats))].map
        Prod.fst) : List String).Nodup) ∧
    (∃ doc2, update_stock_settings
        (some ⟨[("A", ⟨some (PyFloat.val 1), some (PyFloat.val 2), [("y", 7)]⟩)], [("z", 5)]⟩)
        (fun _ => [("A", ⟨some (PyFloat.val 9), some (PyFloat.val 9)⟩)]) true =
          (true, some doc2) ∧
      doc2.rest =
        (⟨[("A", ⟨some (PyFloat.val 1), some (PyFloat.val 2), [("y", 7)]⟩)], [("z", 5)]⟩ :
          SettingsDoc).rest ∧
      (∀ s e, dget (⟨[("A", ⟨some (PyFloat.val 1), some (PyFloat.val 2), [("y", 7)]⟩)],
          [("z", 5)]⟩ : SettingsDoc).stocks s = some e →
        dget doc2.stocks s =
          some (match dget ((fun (_ : List String) =>
              [("A", (⟨some (PyFloat.val 9), some (PyFloat.val 9)⟩ : SymbolStats))])
              ((⟨[("A", ⟨some (PyFloat.val 1), some (PyFloat.val 2), [("y", 7)]⟩)],
                [("z", 5)]⟩ : SettingsDoc).stocks.map Prod.fst)) s with
            | some d =>
                if d.volatility.isSome && d.expectedReturn.isSome then applyStats d e
                else e
            | none => e)) ∧
      (∀ s, dget (⟨[("A", ⟨some (PyFloat.val 1), some (PyFloat.val 2), [("y", 7)]⟩)],
          [("z", 5)]⟩ : SettingsDoc).stocks s = none → dget doc2.stocks s = none)) :=
  ⟨by decide,
    claim9_bulk_update_frame
      ⟨[("A", ⟨some (PyFloat.val 1), some (PyFloat.val 2), [("y", 7)]⟩)], [("z", 5)]⟩
      (fun _ => [("A", ⟨some (PyFloat.val 9), some (PyFloat.val 9)⟩)]) (by decide)⟩
